import Mathlib

/-!
Shallow embedding of the Annif evaluation engine (`annif/eval.py`) and the
backend registry (`annif/backend/__init__.py`).

Conventions of the embedding:
* Python lists become `List`, Python sets become `Finset` (built with
  `List.toFinset`, mirroring `set(...)`).
* Floating-point scores are modelled by `ℝ` where a logarithm is involved
  (DCG family) and by `ℚ` for the purely rational sklearn metrics.
* A Python function that can raise becomes `Except`/`Option`: the raised
  exception is the `error`/`none` value.
-/

namespace Annif

variable {α : Type*} [DecidableEq α]

/-- One row of the multilabel indicator matrix produced by
`MultiLabelBinarizer.transform`: the indicator vector of a document's label
collection is determined by the set of labels occurring in it.  The binarizer
is always fitted on `list(relevant) + list(selected)`, so every label of every
row is among the fitted classes and none is dropped. -/
def mlb_transform (rows : List (List α)) : List (Finset α) :=
  rows.map List.toFinset

/-- Per-row precision used by `precision_score(..., average='samples')`:
`|true ∩ pred| / |pred|`; sklearn resolves an empty `pred` to `0` (the
suppressed ill-defined-metric warning), which coincides with `ℚ`'s `0/0 = 0`
because the numerator is then also `0`. -/
def precision_row (t p : Finset α) : ℚ :=
  ((t ∩ p).card : ℚ) / (p.card : ℚ)

/-- Per-row recall used by `recall_score(..., average='samples')`:
`|true ∩ pred| / |true|`, `0` on empty `true`. -/
def recall_row (t p : Finset α) : ℚ :=
  ((t ∩ p).card : ℚ) / (t.card : ℚ)

/-- Per-row F1 used by `f1_score(..., average='samples')`:
`2·|true ∩ pred| / (|true| + |pred|)`, `0` when both sides are empty.  This is
the standard harmonic mean of the per-row precision and recall with the
zero-denominator convention. -/
def f1_row (t p : Finset α) : ℚ :=
  (2 * (t ∩ p).card : ℚ) / ((t.card + p.card : ℕ) : ℚ)

/-- sklearn's `average='samples'` aggregation: score each aligned row pair of
`y_true`/`y_pred` and average arithmetically over the samples.  In every use
the two row lists have the same length, so the zip loses nothing. -/
def samples_average (row_score : Finset α → Finset α → ℚ)
    (y_true y_pred : List (Finset α)) : ℚ :=
  (((y_true.zip y_pred).map fun p => row_score p.1 p.2).sum) /
    (((y_true.zip y_pred).length : ℕ) : ℚ)

/-- `sklearn.metrics.precision_score(y_true, y_pred, average='samples')`. -/
def precision_score (y_true y_pred : List (Finset α)) : ℚ :=
  samples_average precision_row y_true y_pred

/-- `sklearn.metrics.recall_score(y_true, y_pred, average='samples')`. -/
def recall_score (y_true y_pred : List (Finset α)) : ℚ :=
  samples_average recall_row y_true y_pred

/-- `sklearn.metrics.f1_score(y_true, y_pred, average='samples')`. -/
def f1_score (y_true y_pred : List (Finset α)) : ℚ :=
  samples_average f1_row y_true y_pred

/-- `sklearn_metric_score` from `eval.py`: binarize `relevant` into `y_true`
and `selected` into `y_pred` and call the metric with `average='samples'`. -/
def sklearn_metric_score (selected relevant : List (List α))
    (metric_fn : List (Finset α) → List (Finset α) → ℚ) : ℚ :=
  metric_fn (mlb_transform relevant) (mlb_transform selected)

/-- `precision` from `eval.py`: optionally truncate every document's predicted
list to its first `at_k` elements, then score with `precision_score`. -/
def precision (selected relevant : List (List α)) (at_k : Option ℕ) : ℚ :=
  let selected := match at_k with
    | some k => selected.map fun subjs => subjs.take k
    | none => selected
  sklearn_metric_score selected relevant precision_score

/-- `recall` from `eval.py`. -/
def «recall» (selected relevant : List (List α)) : ℚ :=
  sklearn_metric_score selected relevant recall_score

/-- `f_measure` from `eval.py`. -/
def f_measure (selected relevant : List (List α)) : ℚ :=
  sklearn_metric_score selected relevant f1_score

/-- `true_positives` from `eval.py`: over the aligned document pairs, sum
`|set(selected) ∩ set(relevant)|`. -/
def true_positives (selected relevant : List (List α)) : ℕ :=
  ((selected.zip relevant).map fun p =>
    (p.1.toFinset ∩ p.2.toFinset).card).sum

/-- `false_positives` from `eval.py`: over the aligned document pairs, sum
`|set(selected) - set(relevant)|`. -/
def false_positives (selected relevant : List (List α)) : ℕ :=
  ((selected.zip relevant).map fun p =>
    (p.1.toFinset \ p.2.toFinset).card).sum

/-- `false_negatives` from `eval.py`: over the aligned document pairs, sum
`|set(relevant) - set(selected)|`. -/
def false_negatives (selected relevant : List (List α)) : ℕ :=
  ((selected.zip relevant).map fun p =>
    (p.2.toFinset \ p.1.toFinset).card).sum

/-- `dcg` from `eval.py`: `0.0` if either list is empty, otherwise the
binary relevance scores of `list(selected)[:at_k]` divided elementwise by the
weights `log2(arange(2, size + 2))` and summed. -/
noncomputable def dcg (selected relevant : List α) (at_k : ℕ) : ℝ :=
  if selected.length = 0 ∨ relevant.length = 0 then 0
  else
    let scores : List ℝ :=
      (selected.take at_k).map fun item => if item ∈ relevant then 1 else 0
    let weights : List ℝ :=
      (List.range scores.length).map fun i : ℕ => Real.logb 2 ((i : ℝ) + 2)
    (List.zipWith (· / ·) scores weights).sum

/-- `normalized_dcg` from `eval.py`: per aligned document pair take
`dcg(selected)/dcg(ideal)` (`0` when the ideal DCG is `0`), then
`statistics.mean` over the collected scores.  `statistics.mean` raises
`StatisticsError` on an empty list, modelled by `none`. -/
noncomputable def normalized_dcg (selected relevant : List (List α))
    (at_k : ℕ) : Option ℝ :=
  let scores : List ℝ := (selected.zip relevant).map fun p =>
    let dcg_val := dcg p.1 p.2 at_k
    let dcg_max := dcg p.2 p.2 at_k
    if dcg_max = 0 then 0 else dcg_val / dcg_max
  if scores.length = 0 then none
  else some (scores.sum / (scores.length : ℝ))

/-- The exceptions the evaluation code can raise: Python's `ValueError`
(carrying its message) and `statistics.StatisticsError`. -/
inductive EvalError where
  | valueError (msg : String)
  | statisticsError
deriving DecidableEq

/-- `evaluate` from `eval.py`.  `hits, gold_subjects = zip(*samples)` raises
`ValueError` when `samples` is empty; otherwise every metric of the fixed
listing is applied to the whole batch and collected, in order, into the
report (an ordered name → score mapping). -/
noncomputable def evaluate (samples : List (List α × List α)) :
    Except EvalError (List (String × ℝ)) :=
  if samples.isEmpty then
    .error (.valueError "not enough values to unpack (expected 2, got 0)")
  else
    let hits := samples.map Prod.fst
    let gold_subjects := samples.map Prod.snd
    match normalized_dcg hits gold_subjects 5,
        normalized_dcg hits gold_subjects 10 with
    | some ndcg5, some ndcg10 =>
      .ok [("Precision", (precision hits gold_subjects none : ℝ)),
           ("Recall", («recall» hits gold_subjects : ℝ)),
           ("F-measure", (f_measure hits gold_subjects : ℝ)),
           ("NDCG@5", ndcg5),
           ("NDCG@10", ndcg10),
           ("Precision@1", (precision hits gold_subjects (some 1) : ℝ)),
           ("Precision@3", (precision hits gold_subjects (some 3) : ℝ)),
           ("Precision@5", (precision hits gold_subjects (some 5) : ℝ)),
           ("True positives", (true_positives hits gold_subjects : ℝ)),
           ("False positives", (false_positives hits gold_subjects : ℝ)),
           ("False negatives", (false_negatives hits gold_subjects : ℝ))]
    | _, _ => .error .statisticsError

/-- One predicted subject: `eval.py` reads its `uri` and `label`. -/
structure Hit where
  uri : String
  label : String
deriving DecidableEq

/-- The gold standard for one document, exposing `has_uris()`, the identifier
set and the label set. -/
structure GoldSubjectSet where
  has_uris : Bool
  subject_uris : List String
  subject_labels : List String
deriving DecidableEq

/-- `transform_sample` from `eval.py`: project one `(hits, gold)` sample into
either URI space or label space, decided by `has_uris()`. -/
def transform_sample (sample : List Hit × GoldSubjectSet) :
    List String × List String :=
  let hits := sample.1
  let gold_subjects := sample.2
  if gold_subjects.has_uris then
    (hits.map Hit.uri, gold_subjects.subject_uris)
  else
    (hits.map Hit.label, gold_subjects.subject_labels)

/-- `EvaluationBatch` from `eval.py`: an append-only list of samples. -/
structure EvaluationBatch where
  _samples : List (List Hit × GoldSubjectSet)
deriving DecidableEq

/-- `EvaluationBatch.evaluate`: append one `(hits, gold_subjects)` sample. -/
def EvaluationBatch.evaluate (batch : EvaluationBatch) (hits : List Hit)
    (gold_subjects : GoldSubjectSet) : EvaluationBatch :=
  ⟨batch._samples ++ [(hits, gold_subjects)]⟩

/-- `EvaluationBatch.results`: transform every stored sample and run the full
metric listing over the transformed batch. -/
noncomputable def EvaluationBatch.results (batch : EvaluationBatch) :
    Except EvalError (List (String × ℝ)) :=
  Annif.evaluate (batch._samples.map transform_sample)

/-! ## Backend registry (`annif/backend/__init__.py`) -/

/-- The backend classes the registry's factories can return. -/
inductive AnnifBackend where
  | DummyBackend | EnsembleBackend | FastTextBackend | HTTPBackend
  | MLLMBackend | NNEnsembleBackend | OmikujiBackend | PAVBackend
  | StwfsaBackend | SVCBackend | TFIDFBackend | YakeBackend
  | XlmRobertaBackend | MiniLmV2Backend | EhriBertBackend | MDeBertaBackend
  | MistralBackend
deriving DecidableEq

/-- The exceptions backend lookup can raise: `ValueError` with its message,
or an `ImportError` propagating unchanged out of a plain `from . import`. -/
inductive PyError where
  | valueError (msg : String)
  | importError (module : String)
deriving DecidableEq

/-- An import environment: which backend modules can be imported.  A module
whose optional native dependency is missing fails to import. -/
def ImportEnv : Type := String → Bool

/-- `_dummy`: plain import, an `ImportError` would propagate. -/
def _dummy (avail : ImportEnv) : Except PyError AnnifBackend :=
  if avail "dummy" then .ok .DummyBackend else .error (.importError "dummy")

/-- `_ensemble`: plain import. -/
def _ensemble (avail : ImportEnv) : Except PyError AnnifBackend :=
  if avail "ensemble" then .ok .EnsembleBackend
  else .error (.importError "ensemble")

/-- `_fasttext`: guarded import, `ImportError` becomes a `ValueError`. -/
def _fasttext (avail : ImportEnv) : Except PyError AnnifBackend :=
  if avail "fasttext" then .ok .FastTextBackend
  else .error (.valueError "fastText not available, cannot use fasttext backend")

/-- `_http`: plain import. -/
def _http (avail : ImportEnv) : Except PyError AnnifBackend :=
  if avail "http" then .ok .HTTPBackend else .error (.importError "http")

/-- `_mllm`: plain import. -/
def _mllm (avail : ImportEnv) : Except PyError AnnifBackend :=
  if avail "mllm" then .ok .MLLMBackend else .error (.importError "mllm")

/-- `_nn_ensemble`: guarded import, `ImportError` becomes a `ValueError`. -/
def _nn_ensemble (avail : ImportEnv) : Except PyError AnnifBackend :=
  if avail "nn_ensemble" then .ok .NNEnsembleBackend
  else .error (.valueError
    "Keras and TensorFlow not available, cannot use nn_ensemble backend")

/-- `_omikuji`: guarded import, `ImportError` becomes a `ValueError`. -/
def _omikuji (avail : ImportEnv) : Except PyError AnnifBackend :=
  if avail "omikuji" then .ok .OmikujiBackend
  else .error (.valueError "Omikuji not available, cannot use omikuji backend")

/-- `_pav`: plain import. -/
def _pav (avail : ImportEnv) : Except PyError AnnifBackend :=
  if avail "pav" then .ok .PAVBackend else .error (.importError "pav")

/-- `_stwfsa`: guarded import, `ImportError` becomes a `ValueError`. -/
def _stwfsa (avail : ImportEnv) : Except PyError AnnifBackend :=
  if avail "stwfsa" then .ok .StwfsaBackend
  else .error (.valueError "STWFSA not available, cannot use stwfsa backend")

/-- `_svc`: plain import. -/
def _svc (avail : ImportEnv) : Except PyError AnnifBackend :=
  if avail "svc" then .ok .SVCBackend else .error (.importError "svc")

/-- `_tfidf`: plain import. -/
def _tfidf (avail : ImportEnv) : Except PyError AnnifBackend :=
  if avail "tfidf" then .ok .TFIDFBackend else .error (.importError "tfidf")

/-- `_yake`: guarded import, `ImportError` becomes a `ValueError`. -/
def _yake (avail : ImportEnv) : Except PyError AnnifBackend :=
  if avail "yake" then .ok .YakeBackend
  else .error (.valueError "YAKE not available, cannot use yake backend")

/-- `_minilmv2`: guarded import, `ImportError` becomes a `ValueError`. -/
def _minilmv2 (avail : ImportEnv) : Except PyError AnnifBackend :=
  if avail "minilmv2" then .ok .MiniLmV2Backend
  else .error (.valueError "MiniLMv2 not available, cannot use minilmv2 backend")

/-- `_xlmroberta`: guarded import, `ImportError` becomes a `ValueError`. -/
def _xlmroberta (avail : ImportEnv) : Except PyError AnnifBackend :=
  if avail "xlmroberta" then .ok .XlmRobertaBackend
  else .error (.valueError
    "XlmRoberta not available, cannot use xlmroberta backend")

/-- `_mdeberta`: guarded import, `ImportError` becomes a `ValueError`. -/
def _mdeberta (avail : ImportEnv) : Except PyError AnnifBackend :=
  if avail "mdeberta" then .ok .MDeBertaBackend
  else .error (.valueError "MDeBERTa not available, cannot use mdeberta backend")

/-- `_ehribert`: guarded import, `ImportError` becomes a `ValueError`. -/
def _ehribert (avail : ImportEnv) : Except PyError AnnifBackend :=
  if avail "ehribert" then .ok .EhriBertBackend
  else .error (.valueError "EhriBert not available, cannot use ehribert backend")

/-- `_mistral`: guarded import, `ImportError` becomes a `ValueError`. -/
def _mistral (avail : ImportEnv) : Except PyError AnnifBackend :=
  if avail "mistral" then .ok .MistralBackend
  else .error (.valueError "Mistral not available, cannot use mistral backend")

/-- `_backend_fns`: the registry, in source order. -/
def _backend_fns : List (String × (ImportEnv → Except PyError AnnifBackend)) :=
  [("dummy", _dummy), ("ensemble", _ensemble), ("fasttext", _fasttext),
   ("http", _http), ("mllm", _mllm), ("nn_ensemble", _nn_ensemble),
   ("omikuji", _omikuji), ("pav", _pav), ("stwfsa", _stwfsa), ("svc", _svc),
   ("tfidf", _tfidf), ("yake", _yake), ("xlmroberta", _xlmroberta),
   ("minilmv2", _minilmv2), ("ehribert", _ehribert), ("mdeberta", _mdeberta),
   ("mistral", _mistral)]

/-- `get_backend`: look the identifier up in the registry and call its
factory, or raise `ValueError("No such backend type ...")`. -/
def get_backend (backend_id : String) (avail : ImportEnv) :
    Except PyError AnnifBackend :=
  match _backend_fns.lookup backend_id with
  | some fn => fn avail
  | none => .error (.valueError ("No such backend type " ++ backend_id))

/-- The identifiers registered in `_backend_fns`. -/
def registered_ids : List String := _backend_fns.map Prod.fst

/-- The identifiers whose factory guards its import with
`try ... except ImportError` (the optional-dependency backends). -/
def optional_ids : List String :=
  ["fasttext", "nn_ensemble", "omikuji", "stwfsa", "yake", "minilmv2",
   "xlmroberta", "ehribert", "mdeberta", "mistral"]

/-- The message of the uniform "backend unavailable" `ValueError` each
optional backend's factory raises when its dependency cannot be imported. -/
def unavailable_msg : String → String
  | "fasttext" => "fastText not available, cannot use fasttext backend"
  | "nn_ensemble" =>
      "Keras and TensorFlow not available, cannot use nn_ensemble backend"
  | "omikuji" => "Omikuji not available, cannot use omikuji backend"
  | "stwfsa" => "STWFSA not available, cannot use stwfsa backend"
  | "yake" => "YAKE not available, cannot use yake backend"
  | "minilmv2" => "MiniLMv2 not available, cannot use minilmv2 backend"
  | "xlmroberta" => "XlmRoberta not available, cannot use xlmroberta backend"
  | "ehribert" => "EhriBert not available, cannot use ehribert backend"
  | "mdeberta" => "MDeBERTa not available, cannot use mdeberta backend"
  | "mistral" => "Mistral not available, cannot use mistral backend"
  | _ => ""

/-! ## Auxiliary definitions used to state and prove the claims -/

/-- The DCG weight of 0-indexed rank `i`: `1 / log2(i + 2)`. -/
noncomputable def dcgWeight (i : ℕ) : ℝ :=
  1 / Real.logb 2 ((i : ℝ) + 2)

/-- The DCG mass of the scored positions of a list, starting at 0-indexed
rank `off`: each element in `relevant` contributes the weight of its rank. -/
noncomputable def scoreSum (relevant : List α) : List α → ℕ → ℝ
  | [], _ => 0
  | a :: t, off =>
      (if a ∈ relevant then dcgWeight off else 0) + scoreSum relevant t (off + 1)

/-- The DCG mass of `m` consecutive all-relevant positions starting at
0-indexed rank `off`. -/
noncomputable def idealSum : ℕ → ℕ → ℝ
  | 0, _ => 0
  | m + 1, off => dcgWeight off + idealSum m (off + 1)

/-- `dcg` transcribed from the words of the specification: 0 if either side
is empty; otherwise over the first `k` predicted labels, score the 1-indexed
position `i` as 1 if its label is relevant else 0, divide by `log2(i+1)`,
and sum. -/
noncomputable def dcg_spec [Inhabited α] (selected relevant : List α)
    (k : ℕ) : ℝ :=
  if selected = [] ∨ relevant = [] then 0
  else ∑ i in Finset.Icc 1 (min k selected.length),
    (if selected.getD (i - 1) default ∈ relevant then (1 : ℝ) else 0) /
      Real.logb 2 ((i : ℝ) + 1)

/-! ## Groundwork lemmas -/

theorem dcgWeight_pos (i : ℕ) : 0 < dcgWeight i := by
  have h1 : (1 : ℝ) < (i : ℝ) + 2 := by
    have := Nat.cast_nonneg (α := ℝ) i
    linarith
  have := Real.logb_pos (b := 2) (by norm_num) h1
  rw [dcgWeight]
  positivity

theorem dcgWeight_succ_le (i : ℕ) : dcgWeight (i + 1) ≤ dcgWeight i := by
  have hpos : (0 : ℝ) < Real.logb 2 ((i : ℝ) + 2) := by
    have h1 : (1 : ℝ) < (i : ℝ) + 2 := by
      have := Nat.cast_nonneg (α := ℝ) i
      linarith
    exact Real.logb_pos (by norm_num) h1
  have hx : (0 : ℝ) < (i : ℝ) + 2 := by
    have := Nat.cast_nonneg (α := ℝ) i
    linarith
  have hle : Real.logb 2 ((i : ℝ) + 2) ≤ Real.logb 2 (((i + 1 : ℕ) : ℝ) + 2) := by
    apply Real.logb_le_logb_of_le (by norm_num) hx
    push_cast
    linarith
  rw [dcgWeight, dcgWeight]
  exact one_div_le_one_div_of_le hpos hle

theorem idealSum_nonneg (m off : ℕ) : 0 ≤ idealSum m off := by
  induction m generalizing off with
  | zero => simp [idealSum]
  | succ n ih =>
    rw [idealSum]
    have := dcgWeight_pos off
    have := ih (off + 1)
    linarith

theorem idealSum_off_succ_le (m off : ℕ) :
    idealSum m (off + 1) ≤ idealSum m off := by
  induction m generalizing off with
  | zero => simp [idealSum]
  | succ n ih =>
    rw [idealSum, idealSum]
    exact add_le_add (dcgWeight_succ_le off) (ih (off + 1))

theorem idealSum_mono (m m' off : ℕ) (h : m ≤ m') :
    idealSum m off ≤ idealSum m' off := by
  induction m' generalizing m off with
  | zero =>
    have : m = 0 := Nat.le_zero.mp h
    simp [this]
  | succ n ih =>
    cases m with
    | zero =>
      rw [idealSum]
      have := dcgWeight_pos off
      have := idealSum_nonneg n (off + 1)
      rw [idealSum]
      linarith
    | succ k =>
      rw [idealSum, idealSum]
      exact add_le_add_left (ih k (off + 1) (Nat.succ_le_succ_iff.mp h)) _

theorem scoreSum_le_idealSum (relevant : List α) (A : List α) (off : ℕ) :
    scoreSum relevant A off
      ≤ idealSum (A.countP fun a => decide (a ∈ relevant)) off := by
  induction A generalizing off with
  | nil => simp [scoreSum, idealSum]
  | cons a t ih =>
    by_cases h : a ∈ relevant
    · rw [List.countP_cons_of_pos _ _ (by simpa using h), scoreSum,
        if_pos h, idealSum]
      exact add_le_add_left (ih (off + 1)) _
    · rw [List.countP_cons_of_neg _ _ (by simpa using h), scoreSum, if_neg h]
      calc 0 + scoreSum relevant t (off + 1)
          ≤ idealSum (t.countP fun a => decide (a ∈ relevant)) (off + 1) := by
            rw [zero_add]; exact ih (off + 1)
        _ ≤ idealSum (t.countP fun a => decide (a ∈ relevant)) off :=
            idealSum_off_succ_le _ _

theorem scoreSum_all_mem (relevant : List α) (A : List α) (off : ℕ)
    (h : ∀ a ∈ A, a ∈ relevant) :
    scoreSum relevant A off = idealSum A.length off := by
  induction A generalizing off with
  | nil => simp [scoreSum, idealSum]
  | cons a t ih =>
    rw [scoreSum, if_pos (h a (List.mem_cons_self a t)), List.length_cons,
      idealSum, ih (off + 1) (fun x hx => h x (List.mem_cons_of_mem a hx))]

theorem countP_mem_le_length (relevant : List α) (A : List α) (hnd : A.Nodup) :
    (A.countP fun a => decide (a ∈ relevant)) ≤ relevant.length := by
  rw [List.countP_eq_length_filter]
  have hfil : (A.filter fun a => decide (a ∈ relevant)).Nodup :=
    hnd.filter _
  have hsub : (A.filter fun a => decide (a ∈ relevant)).toFinset
      ⊆ relevant.toFinset := by
    intro x hx
    rw [List.mem_toFinset] at hx ⊢
    exact of_decide_eq_true (List.mem_filter.mp hx).2
  calc (A.filter fun a => decide (a ∈ relevant)).length
      = (A.filter fun a => decide (a ∈ relevant)).toFinset.card :=
        (List.toFinset_card_of_nodup hfil).symm
    _ ≤ relevant.toFinset.card := Finset.card_le_card hsub
    _ ≤ relevant.length := List.toFinset_card_le relevant

theorem zipWith_weights_sum (relevant : List α) (A : List α) (off : ℕ) :
    (List.zipWith (· / ·)
      (A.map fun item => if item ∈ relevant then (1 : ℝ) else 0)
      ((List.range A.length).map
        fun i => Real.logb 2 (((off + i : ℕ) : ℝ) + 2))).sum
      = scoreSum relevant A off := by
  induction A generalizing off with
  | nil => simp [scoreSum]
  | cons a t ih =>
    rw [List.map_cons, List.length_cons, List.range_succ_eq_map,
      List.map_cons, List.zipWith_cons_cons, List.sum_cons, List.map_map]
    have harg : ((fun i => Real.logb 2 (((off + i : ℕ) : ℝ) + 2)) ∘ Nat.succ)
        = fun i => Real.logb 2 ((((off + 1) + i : ℕ) : ℝ) + 2) := by
      funext i
      simp only [Function.comp_apply]
      congr 2
      push_cast
      ring_nf
    rw [harg, ih (off + 1), scoreSum]
    congr 1
    by_cases h : a ∈ relevant
    · rw [if_pos h, if_pos h, Nat.add_zero, dcgWeight]
    · rw [if_neg h, if_neg h, zero_div]

theorem dcg_eq_scoreSum (selected relevant : List α) (at_k : ℕ)
    (h1 : selected ≠ []) (h2 : relevant ≠ []) :
    dcg selected relevant at_k = scoreSum relevant (selected.take at_k) 0 := by
  rw [dcg, if_neg]
  · have hw : (fun i : ℕ => Real.logb 2 ((i : ℝ) + 2))
        = fun i : ℕ => Real.logb 2 (((0 + i : ℕ) : ℝ) + 2) := by
      funext i
      norm_num
    rw [hw]
    dsimp only
    rw [List.length_map]
    exact zipWith_weights_sum relevant (selected.take at_k) 0
  · rw [List.length_eq_zero, List.length_eq_zero]
    rintro (h | h)
    · exact h1 h
    · exact h2 h

theorem dcg_ideal_form (relevant : List α) (at_k : ℕ) (h : relevant ≠ []) :
    dcg relevant relevant at_k = idealSum (min at_k relevant.length) 0 := by
  rw [dcg_eq_scoreSum relevant relevant at_k h h,
    scoreSum_all_mem relevant _ 0 (fun a ha => List.mem_of_mem_take ha),
    List.length_take]

theorem scoreSum_nonneg (relevant : List α) (A : List α) (off : ℕ) :
    0 ≤ scoreSum relevant A off := by
  induction A generalizing off with
  | nil => simp [scoreSum]
  | cons a t ih =>
    rw [scoreSum]
    have hw := dcgWeight_pos off
    have ht := ih (off + 1)
    by_cases h : a ∈ relevant
    · rw [if_pos h]; linarith
    · rw [if_neg h]; linarith

theorem dcg_nonneg (selected relevant : List α) (at_k : ℕ) :
    0 ≤ dcg selected relevant at_k := by
  by_cases h1 : selected = []
  · simp [dcg, h1]
  · by_cases h2 : relevant = []
    · simp [dcg, h2]
    · rw [dcg_eq_scoreSum selected relevant at_k h1 h2]
      exact scoreSum_nonneg relevant _ 0

/-! ## C2: the ideal ranking bounds DCG -/

/-- C2 counterexample: the claim "`dcg(relevant, relevant, k) >=
dcg(selected, relevant, k)` for every document pair and every k" fails at
`selected = [0, 0]`, `relevant = [0]`, `k = 2`: the duplicated relevant item
is scored at both ranks, giving `1/log2(2) + 1/log2(3) > 1/log2(2)`. -/
theorem dcg_ideal_bound_counterexample :
    ¬ (dcg [0, 0] ([0] : List ℕ) 2 ≤ dcg [0] ([0] : List ℕ) 2) := by
  have h2 : Real.logb 2 2 = 1 := Real.logb_self_eq_one (by norm_num)
  have h3 : (0 : ℝ) < Real.logb 2 3 := Real.logb_pos (by norm_num) (by norm_num)
  simp only [dcg, List.length_cons, List.length_nil]
  norm_num [List.take, List.range_succ, h2]
  linarith

/-- C2 (amended): provided `selected` contains no duplicate items, the ideal
ranking is an upper bound: `dcg selected relevant k ≤ dcg relevant relevant k`
for every `relevant` and every `k`. -/
theorem dcg_ideal_upper_bound (selected relevant : List α) (at_k : ℕ)
    (hnd : selected.Nodup) :
    dcg selected relevant at_k ≤ dcg relevant relevant at_k := by
  by_cases h2 : relevant = []
  · subst h2
    simp [dcg]
  · by_cases h1 : selected = []
    · have hL : dcg selected relevant at_k = 0 := by
        subst h1
        simp [dcg]
      rw [hL]
      exact dcg_nonneg relevant relevant at_k
    · rw [dcg_eq_scoreSum selected relevant at_k h1 h2,
        dcg_ideal_form relevant at_k h2]
      calc scoreSum relevant (selected.take at_k) 0
          ≤ idealSum
              ((selected.take at_k).countP fun a => decide (a ∈ relevant)) 0 :=
            scoreSum_le_idealSum relevant _ 0
        _ ≤ idealSum (min at_k relevant.length) 0 := by
            apply idealSum_mono
            apply le_min
            · calc ((selected.take at_k).countP fun a => decide (a ∈ relevant))
                  ≤ (selected.take at_k).length := List.countP_le_length _
                _ ≤ at_k := by
                    rw [List.length_take]
                    exact min_le_left _ _
            · exact countP_mem_le_length relevant _
                (List.Nodup.sublist (List.take_sublist at_k selected) hnd)

/-- Witness for `dcg_ideal_upper_bound` at `selected = [0]`,
`relevant = [1]`, `k = 1`. -/
theorem dcg_ideal_upper_bound_witness :
    ([0] : List ℕ).Nodup ∧ dcg [0] ([1] : List ℕ) 1 ≤ dcg [1] ([1] : List ℕ) 1 :=
  ⟨by decide, dcg_ideal_upper_bound [0] [1] 1 (by decide)⟩

/-! ## C3: dcg computes the specified formula -/

theorem scoreSum_eq_sum_range [Inhabited α] (relevant : List α) (A : List α)
    (off : ℕ) :
    scoreSum relevant A off
      = ∑ i in Finset.range A.length,
          (if A.getD i default ∈ relevant then (1 : ℝ) else 0) /
            Real.logb 2 (((off + i : ℕ) : ℝ) + 2) := by
  induction A generalizing off with
  | nil => simp [scoreSum]
  | cons a t ih =>
    rw [List.length_cons, Finset.sum_range_succ']
    simp only [List.getD_cons_succ, List.getD_cons_zero]
    have harg : ∀ i : ℕ, (((off + (i + 1) : ℕ) : ℝ) + 2)
        = ((((off + 1) + i : ℕ) : ℝ) + 2) := by
      intro i
      push_cast
      ring_nf
    rw [scoreSum, ih (off + 1)]
    have hsum : ∑ i in Finset.range t.length,
          (if t.getD i default ∈ relevant then (1 : ℝ) else 0) /
            Real.logb 2 (((off + (i + 1) : ℕ) : ℝ) + 2)
        = ∑ i in Finset.range t.length,
          (if t.getD i default ∈ relevant then (1 : ℝ) else 0) /
            Real.logb 2 ((((off + 1) + i : ℕ) : ℝ) + 2) := by
      apply Finset.sum_congr rfl
      intro i _
      rw [harg i]
    rw [hsum]
    have hhead : (if a ∈ relevant then dcgWeight off else 0)
        = (if a ∈ relevant then (1 : ℝ) else 0) /
            Real.logb 2 (((off + 0 : ℕ) : ℝ) + 2) := by
      by_cases h : a ∈ relevant
      · rw [if_pos h, if_pos h, dcgWeight]
        norm_num
      · rw [if_neg h, if_neg h, zero_div]
    rw [hhead]
    exact add_comm _ _

/-- C3: `dcg` agrees everywhere with `dcg_spec`, the formula stated by the
specification (`0` on an empty side, else the sum over the first `k`
predicted labels of relevance at 1-indexed position `i` divided by
`log2(i+1)`). -/
theorem dcg_matches_spec [Inhabited α] (selected relevant : List α) (k : ℕ) :
    dcg selected relevant k = dcg_spec selected relevant k := by
  by_cases h : selected = [] ∨ relevant = []
  · rw [dcg_spec, if_pos h, dcg, if_pos]
    rcases h with h | h <;> simp [h]
  · push_neg at h
    obtain ⟨h1, h2⟩ := h
    rw [dcg_eq_scoreSum selected relevant k h1 h2,
      scoreSum_eq_sum_range relevant _ 0, dcg_spec,
      if_neg (by rintro (h | h); exact h1 h; exact h2 h)]
    rw [← Nat.Ico_succ_right, Finset.sum_Ico_eq_sum_range]
    rw [List.length_take]
    apply Finset.sum_congr rfl
    intro i hi
    rw [Finset.mem_range] at hi
    have hlt : i < min k selected.length := by omega
    have hgetD : (selected.take k).getD i default = selected.getD i default := by
      rw [List.getD_eq_getElem?_getD, List.getD_eq_getElem?_getD,
        List.getElem?_take_of_lt (by omega : i < k)]
    rw [hgetD]
    have hidx : 1 + i - 1 = i := by omega
    rw [hidx]
    congr 1
    push_cast
    ring_nf

/-! ## C5: set-overlap identities -/

/-- C5: over a batch of aligned document pairs, `tp + fn` is the total size
of the relevant sets and `tp + fp` is the total size of the selected sets. -/
theorem set_overlap_identity (selected relevant : List (List α))
    (h : selected.length = relevant.length) :
    true_positives selected relevant + false_negatives selected relevant
        = (relevant.map fun rsubj => rsubj.toFinset.card).sum ∧
    true_positives selected relevant + false_positives selected relevant
        = (selected.map fun ssubj => ssubj.toFinset.card).sum := by
  induction selected generalizing relevant with
  | nil =>
    cases relevant with
    | nil => simp [true_positives, false_negatives, false_positives]
    | cons r rt => simp at h
  | cons s st ih =>
    cases relevant with
    | nil => simp at h
    | cons r rt =>
      have h' : st.length = rt.length := by simpa using h
      obtain ⟨ih1, ih2⟩ := ih rt h'
      have e1 : (s.toFinset ∩ r.toFinset).card
            + (r.toFinset \ s.toFinset).card = r.toFinset.card := by
        rw [Finset.inter_comm]
        exact Finset.card_inter_add_card_sdiff r.toFinset s.toFinset
      have e2 : (s.toFinset ∩ r.toFinset).card
            + (s.toFinset \ r.toFinset).card = s.toFinset.card :=
        Finset.card_inter_add_card_sdiff s.toFinset r.toFinset
      simp only [true_positives, false_negatives, false_positives,
        List.zip_cons_cons, List.map_cons, List.sum_cons] at ih1 ih2 ⊢
      constructor
      · omega
      · omega

/-- Witness for `set_overlap_identity` on the spec's end-to-end example:
doc1 `selected = [x, y]`, `relevant = [x, z]`; doc2 `selected = [z]`,
`relevant = [z]` (with `x, y, z := 0, 1, 2`). -/
theorem set_overlap_identity_witness :
    ([[0, 1], [2]] : List (List ℕ)).length = ([[0, 2], [2]] : List (List ℕ)).length ∧
    (true_positives [[0, 1], [2]] [[0, 2], [2]]
        + false_negatives [[0, 1], [2]] [[0, 2], [2]]
      = (([[0, 2], [2]] : List (List ℕ)).map fun rsubj => rsubj.toFinset.card).sum ∧
    true_positives [[0, 1], [2]] [[0, 2], [2]]
        + false_positives [[0, 1], [2]] [[0, 2], [2]]
      = (([[0, 1], [2]] : List (List ℕ)).map fun ssubj => ssubj.toFinset.card).sum) :=
  ⟨rfl, set_overlap_identity [[0, 1], [2]] [[0, 2], [2]] rfl⟩

/-! ## C1: results() on an empty batch -/

/-- C1: `results()` on an accumulator holding zero samples raises the
(recoverable) `ValueError` from unpacking `zip(*samples)` and never returns
a report — in particular never one with every metric equal to 0. -/
theorem results_empty_batch_raises (batch : EvaluationBatch)
    (h : batch._samples = []) :
    batch.results
        = .error (EvalError.valueError
            "not enough values to unpack (expected 2, got 0)") ∧
      ∀ report, batch.results ≠ .ok report := by
  have hres : batch.results
      = .error (EvalError.valueError
          "not enough values to unpack (expected 2, got 0)") := by
    rw [EvaluationBatch.results, h]
    rfl
  refine ⟨hres, fun report hr => ?_⟩
  rw [hres] at hr
  exact Except.noConfusion hr

/-- Witness for `results_empty_batch_raises` at the freshly constructed
(empty) accumulator. -/
theorem results_empty_batch_raises_witness :
    (EvaluationBatch.mk [])._samples = [] ∧
    ((EvaluationBatch.mk []).results
        = .error (EvalError.valueError
            "not enough values to unpack (expected 2, got 0)") ∧
      ∀ report, (EvaluationBatch.mk []).results ≠ .ok report) :=
  ⟨rfl, results_empty_batch_raises (EvaluationBatch.mk []) rfl⟩

/-! ## C6: one key space per document -/

/-- C6: `results()` derives the metric inputs by applying `transform_sample`
to every stored sample, and for each sample exactly one key space is used:
with `has_uris` the selected list is the Hits' URIs and the relevant set the
gold URI set, otherwise the Hits' labels and the gold label set — never a
mixture. -/
theorem results_single_key_space (batch : EvaluationBatch) :
    batch.results = Annif.evaluate (batch._samples.map transform_sample) ∧
    ∀ sample ∈ batch._samples,
      (sample.2.has_uris = true ∧
        transform_sample sample
          = (sample.1.map Hit.uri, sample.2.subject_uris)) ∨
      (sample.2.has_uris = false ∧
        transform_sample sample
          = (sample.1.map Hit.label, sample.2.subject_labels)) := by
  refine ⟨rfl, fun sample _ => ?_⟩
  by_cases h : sample.2.has_uris = true
  · left
    exact ⟨h, by rw [transform_sample, if_pos h]⟩
  · right
    refine ⟨by simpa using h, ?_⟩
    rw [transform_sample, if_neg h]

/-- Witness for `results_single_key_space` on a one-sample batch whose gold
set exposes URIs. -/
theorem results_single_key_space_witness :
    ((EvaluationBatch.mk [([Hit.mk "u1" "l1"], GoldSubjectSet.mk true ["u1"] ["l1"])]).results
        = Annif.evaluate
            ((EvaluationBatch.mk
              [([Hit.mk "u1" "l1"], GoldSubjectSet.mk true ["u1"] ["l1"])])._samples.map
              transform_sample)) ∧
    (((GoldSubjectSet.mk true ["u1"] ["l1"]).has_uris = true ∧
        transform_sample ([Hit.mk "u1" "l1"], GoldSubjectSet.mk true ["u1"] ["l1"])
          = ([Hit.mk "u1" "l1"].map Hit.uri,
              (GoldSubjectSet.mk true ["u1"] ["l1"]).subject_uris)) ∨
      ((GoldSubjectSet.mk true ["u1"] ["l1"]).has_uris = false ∧
        transform_sample ([Hit.mk "u1" "l1"], GoldSubjectSet.mk true ["u1"] ["l1"])
          = ([Hit.mk "u1" "l1"].map Hit.label,
              (GoldSubjectSet.mk true ["u1"] ["l1"]).subject_labels))) :=
  ⟨(results_single_key_space _).1,
    (results_single_key_space
        (EvaluationBatch.mk
          [([Hit.mk "u1" "l1"], GoldSubjectSet.mk true ["u1"] ["l1"])])).2
      ([Hit.mk "u1" "l1"], GoldSubjectSet.mk true ["u1"] ["l1"])
      (List.mem_singleton.mpr rfl)⟩

/-! ## C9: backend lookup error taxonomy -/

/-- C9: an unregistered backend identifier raises the non-recoverable
configuration `ValueError("No such backend type ...")`; a registered
identifier whose optional dependency fails to import raises the uniform
"backend unavailable" `ValueError` of its factory — a message different from
the unknown-identifier one — and never lets the `ImportError` escape. -/
theorem get_backend_error_taxonomy (backend_id : String) (avail : ImportEnv) :
    (backend_id ∉ registered_ids →
      get_backend backend_id avail
        = .error (.valueError ("No such backend type " ++ backend_id))) ∧
    (backend_id ∈ optional_ids → avail backend_id = false →
      get_backend backend_id avail
          = .error (.valueError (unavailable_msg backend_id)) ∧
        unavailable_msg backend_id ≠ "No such backend type " ++ backend_id ∧
        ∀ m, get_backend backend_id avail ≠ .error (.importError m)) := by
  constructor
  · intro hnot
    have hlook : _backend_fns.lookup backend_id = none := by
      simp only [registered_ids, _backend_fns, List.map_cons, List.map_nil,
        List.mem_cons, List.not_mem_nil, or_false, not_or] at hnot
      simp only [_backend_fns, List.lookup]
      obtain ⟨n1, n2, n3, n4, n5, n6, n7, n8, n9, n10, n11, n12, n13, n14,
        n15, n16, n17⟩ := hnot
      rw [beq_false_of_ne n1, beq_false_of_ne n2, beq_false_of_ne n3,
        beq_false_of_ne n4, beq_false_of_ne n5, beq_false_of_ne n6,
        beq_false_of_ne n7, beq_false_of_ne n8, beq_false_of_ne n9,
        beq_false_of_ne n10, beq_false_of_ne n11, beq_false_of_ne n12,
        beq_false_of_ne n13, beq_false_of_ne n14, beq_false_of_ne n15,
        beq_false_of_ne n16, beq_false_of_ne n17]
    rw [get_backend, hlook]
  · intro hopt hun
    have hcase :
        get_backend backend_id avail
            = .error (.valueError (unavailable_msg backend_id)) ∧
          unavailable_msg backend_id
            ≠ "No such backend type " ++ backend_id := by
      simp only [optional_ids, List.mem_cons, List.not_mem_nil, or_false]
        at hopt
      rcases hopt with h | h | h | h | h | h | h | h | h | h <;>
        subst h <;>
        refine ⟨?_, by decide⟩ <;>
        simp [get_backend, _backend_fns, List.lookup, _fasttext, _nn_ensemble,
          _omikuji, _stwfsa, _yake, _minilmv2, _xlmroberta, _ehribert,
          _mdeberta, _mistral, unavailable_msg, hun]
    refine ⟨hcase.1, hcase.2, fun m hm => ?_⟩
    rw [hcase.1] at hm
    have := Except.error.inj hm
    exact PyError.noConfusion this

/-- Witness for `get_backend_error_taxonomy`: the unknown identifier
`"nosuch"` and the optional backend `"omikuji"` with its dependency
missing. -/
theorem get_backend_error_taxonomy_witness :
    (get_backend "nosuch" (fun _ => false)
        = .error (.valueError ("No such backend type " ++ "nosuch"))) ∧
    (get_backend "omikuji" (fun _ => false)
        = .error (.valueError (unavailable_msg "omikuji")) ∧
      unavailable_msg "omikuji" ≠ "No such backend type " ++ "omikuji" ∧
      ∀ m, get_backend "omikuji" (fun _ => false)
        ≠ .error (.importError m)) :=
  ⟨(get_backend_error_taxonomy "nosuch" (fun _ => false)).1 (by decide),
    (get_backend_error_taxonomy "omikuji" (fun _ => false)).2
      (by decide) rfl⟩

/-! ## C4: normalized_dcg is the mean of safe per-document ratios -/

/-- C4: on a non-empty batch `normalized_dcg` returns a value (no exception):
the arithmetic mean over the aligned document pairs of
`dcg(selected)/dcg(ideal)`, where a document whose ideal DCG is `0` — in
particular one with an empty gold set — contributes `0` rather than NaN or
an error. -/
theorem normalized_dcg_mean_formula (selected relevant : List (List α))
    (at_k : ℕ) (h : selected.zip relevant ≠ []) :
    ∃ v : ℝ, normalized_dcg selected relevant at_k = some v ∧
      v = (((selected.zip relevant).map fun p =>
              if dcg p.2 p.2 at_k = 0 then (0 : ℝ)
              else dcg p.1 p.2 at_k / dcg p.2 p.2 at_k).sum)
            / (((selected.zip relevant).map fun p =>
              if dcg p.2 p.2 at_k = 0 then (0 : ℝ)
              else dcg p.1 p.2 at_k / dcg p.2 p.2 at_k).length : ℝ) ∧
      ∀ p ∈ selected.zip relevant, p.2 = [] →
        (if dcg p.2 p.2 at_k = 0 then (0 : ℝ)
         else dcg p.1 p.2 at_k / dcg p.2 p.2 at_k) = 0 := by
  refine ⟨_, ?_, rfl, fun p _ hpnil => ?_⟩
  · rw [normalized_dcg]
    dsimp only
    rw [if_neg]
    rw [List.length_map, List.length_eq_zero]
    exact h
  · rw [if_pos]
    rw [hpnil]
    simp [dcg]

/-- Witness for `normalized_dcg_mean_formula` on the one-document batch
`selected = [[0]]`, `relevant = [[]]` (empty gold set). -/
theorem normalized_dcg_mean_formula_witness :
    (([[0]] : List (List ℕ)).zip [([] : List ℕ)] ≠ []) ∧
    (∃ v : ℝ, normalized_dcg ([[0]] : List (List ℕ)) [[]] 5 = some v ∧
      v = (((([[0]] : List (List ℕ)).zip [[]]).map fun p =>
              if dcg p.2 p.2 5 = 0 then (0 : ℝ)
              else dcg p.1 p.2 5 / dcg p.2 p.2 5).sum)
            / (((([[0]] : List (List ℕ)).zip [[]]).map fun p =>
              if dcg p.2 p.2 5 = 0 then (0 : ℝ)
              else dcg p.1 p.2 5 / dcg p.2 p.2 5).length : ℝ) ∧
      ∀ p ∈ ([[0]] : List (List ℕ)).zip [[]], p.2 = [] →
        (if dcg p.2 p.2 5 = 0 then (0 : ℝ)
         else dcg p.1 p.2 5 / dcg p.2 p.2 5) = 0) :=
  ⟨by decide, normalized_dcg_mean_formula [[0]] [[]] 5 (by decide)⟩

/-! ## C10: behaviour on unaligned batches -/

theorem zip_take_min {β γ : Type*} :
    ∀ (l1 : List β) (l2 : List γ),
      (l1.take (min l1.length l2.length)).zip
          (l2.take (min l1.length l2.length))
        = l1.zip l2
  | [], l2 => by simp
  | a :: t, [] => by simp
  | a :: t, b :: u => by
    simp only [List.length_cons, Nat.succ_min_succ, List.take_succ_cons,
      List.zip_cons_cons]
    rw [zip_take_min t u]

/-- C10 counterexample: with `selected` empty and `relevant` non-empty the
document counts differ, yet `normalized_dcg` does raise: the zip of the two
sides is empty and `statistics.mean([])` raises `StatisticsError` (modelled
by `none`), so "never raises on mismatched lengths" is false. -/
theorem normalized_dcg_unaligned_raises :
    normalized_dcg ([] : List (List ℕ)) [[0]] 5 = none := rfl

/-- C10 (amended): `true_positives`, `false_positives` and `false_negatives`
never raise on unaligned batches: they score exactly the first
`min(len(selected), len(relevant))` aligned pairs and ignore the longer
side's extra documents.  `normalized_dcg` does the same provided at least
one aligned pair exists (it raises `StatisticsError` when the zip is
empty). -/
theorem overlap_metrics_truncate_to_min (selected relevant : List (List α))
    (at_k : ℕ) :
    (true_positives selected relevant
        = true_positives
            (selected.take (min selected.length relevant.length))
            (relevant.take (min selected.length relevant.length))) ∧
    (false_positives selected relevant
        = false_positives
            (selected.take (min selected.length relevant.length))
            (relevant.take (min selected.length relevant.length))) ∧
    (false_negatives selected relevant
        = false_negatives
            (selected.take (min selected.length relevant.length))
            (relevant.take (min selected.length relevant.length))) ∧
    (min selected.length relevant.length ≠ 0 →
      normalized_dcg selected relevant at_k
          = normalized_dcg
              (selected.take (min selected.length relevant.length))
              (relevant.take (min selected.length relevant.length)) at_k ∧
        ∃ v, normalized_dcg selected relevant at_k = some v) := by
  have hz := zip_take_min selected relevant
  refine ⟨?_, ?_, ?_, fun hmin => ⟨?_, ?_⟩⟩
  · rw [true_positives, true_positives, hz]
  · rw [false_positives, false_positives, hz]
  · rw [false_negatives, false_negatives, hz]
  · rw [normalized_dcg, normalized_dcg, hz]
  · rw [normalized_dcg]
    dsimp only
    rw [if_neg]
    · exact ⟨_, rfl⟩
    · rw [List.length_map, List.length_zip]
      exact hmin

/-- Witness for `overlap_metrics_truncate_to_min` on the unaligned batch
`selected = [[0], [1]]`, `relevant = [[0]]`. -/
theorem overlap_metrics_truncate_to_min_witness :
    (true_positives ([[0], [1]] : List (List ℕ)) [[0]]
        = true_positives
            (([[0], [1]] : List (List ℕ)).take
              (min ([[0], [1]] : List (List ℕ)).length
                ([[0]] : List (List ℕ)).length))
            (([[0]] : List (List ℕ)).take
              (min ([[0], [1]] : List (List ℕ)).length
                ([[0]] : List (List ℕ)).length))) ∧
    (min ([[0], [1]] : List (List ℕ)).length ([[0]] : List (List ℕ)).length
        ≠ 0) ∧
    (∃ v, normalized_dcg ([[0], [1]] : List (List ℕ)) [[0]] 5 = some v) :=
  ⟨(overlap_metrics_truncate_to_min [[0], [1]] [[0]] 5).1, by decide,
    ((overlap_metrics_truncate_to_min [[0], [1]] [[0]] 5).2.2.2
      (by decide)).2⟩

/-! ## C7: precision with at_k -/

/-- C7: on the single-document batch `selected = [[A, B, C]]`,
`relevant = [[A, C]]` (with `A, B, C := 0, 1, 2`), precision at `at_k = 1`
is `1.0` and at `at_k = 3` is `2/3`; moreover `at_k` acts exactly by
truncating each document's predicted list to its top `k` elements before
scoring (while `recall` and `f_measure` take no `at_k` and always score the
full predicted set). -/
theorem precision_at_k_example :
    precision ([[0, 1, 2]] : List (List ℕ)) [[0, 2]] (some 1) = 1 ∧
    precision ([[0, 1, 2]] : List (List ℕ)) [[0, 2]] (some 3) = 2 / 3 ∧
    ∀ (selected relevant : List (List ℕ)) (k : ℕ),
      precision selected relevant (some k)
        = precision (selected.map fun subjs => subjs.take k) relevant none := by
  refine ⟨?_, ?_, fun selected relevant k => rfl⟩ <;>
    norm_num [precision, sklearn_metric_score, precision_score,
      samples_average, mlb_transform, precision_row]

/-! ## C8: the report is independent of sample order -/

theorem zip_reverse {β γ : Type*} (l1 : List β) (l2 : List γ)
    (h : l1.length = l2.length) :
    l1.reverse.zip l2.reverse = (l1.zip l2).reverse := by
  induction l1 generalizing l2 with
  | nil =>
    cases l2 with
    | nil => rfl
    | cons b u => simp at h
  | cons a t ih =>
    cases l2 with
    | nil => simp at h
    | cons b u =>
      have h' : t.length = u.length := by simpa using h
      rw [List.reverse_cons, List.reverse_cons,
        List.zip_append (by simp [h']), ih u h', List.zip_cons_cons,
        List.zip_nil_right]
      rw [List.zip_cons_cons, List.reverse_cons]

omit [DecidableEq α] in
theorem samples_average_reverse (row_score : Finset α → Finset α → ℚ)
    (y_true y_pred : List (Finset α)) (h : y_true.length = y_pred.length) :
    samples_average row_score y_true.reverse y_pred.reverse
      = samples_average row_score y_true y_pred := by
  rw [samples_average, samples_average, zip_reverse y_true y_pred h,
    List.map_reverse, List.sum_reverse, List.length_reverse]

theorem metric_score_reverse (row_score : Finset α → Finset α → ℚ)
    (selected relevant : List (List α))
    (h : selected.length = relevant.length) :
    samples_average row_score (mlb_transform relevant.reverse)
        (mlb_transform selected.reverse)
      = samples_average row_score (mlb_transform relevant)
          (mlb_transform selected) := by
  simp only [mlb_transform]
  rw [List.map_reverse, List.map_reverse]
  exact samples_average_reverse row_score _ _ (by simp [h])

theorem precision_reverse (selected relevant : List (List α))
    (at_k : Option ℕ) (h : selected.length = relevant.length) :
    precision selected.reverse relevant.reverse at_k
      = precision selected relevant at_k := by
  cases at_k with
  | none =>
    show samples_average precision_row (mlb_transform relevant.reverse)
          (mlb_transform selected.reverse)
        = samples_average precision_row (mlb_transform relevant)
          (mlb_transform selected)
    exact metric_score_reverse precision_row selected relevant h
  | some k =>
    show samples_average precision_row (mlb_transform relevant.reverse)
          (mlb_transform (selected.reverse.map fun subjs => subjs.take k))
        = samples_average precision_row (mlb_transform relevant)
          (mlb_transform (selected.map fun subjs => subjs.take k))
    rw [List.map_reverse]
    exact metric_score_reverse precision_row
      (selected.map fun subjs => subjs.take k) relevant (by simp [h])

theorem recall_reverse (selected relevant : List (List α))
    (h : selected.length = relevant.length) :
    «recall» selected.reverse relevant.reverse
      = «recall» selected relevant :=
  metric_score_reverse recall_row selected relevant h

theorem f_measure_reverse (selected relevant : List (List α))
    (h : selected.length = relevant.length) :
    f_measure selected.reverse relevant.reverse
      = f_measure selected relevant :=
  metric_score_reverse f1_row selected relevant h

theorem true_positives_reverse (selected relevant : List (List α))
    (h : selected.length = relevant.length) :
    true_positives selected.reverse relevant.reverse
      = true_positives selected relevant := by
  rw [true_positives, true_positives, zip_reverse selected relevant h,
    List.map_reverse, List.sum_reverse]

theorem false_positives_reverse (selected relevant : List (List α))
    (h : selected.length = relevant.length) :
    false_positives selected.reverse relevant.reverse
      = false_positives selected relevant := by
  rw [false_positives, false_positives, zip_reverse selected relevant h,
    List.map_reverse, List.sum_reverse]

theorem false_negatives_reverse (selected relevant : List (List α))
    (h : selected.length = relevant.length) :
    false_negatives selected.reverse relevant.reverse
      = false_negatives selected relevant := by
  rw [false_negatives, false_negatives, zip_reverse selected relevant h,
    List.map_reverse, List.sum_reverse]

theorem normalized_dcg_reverse (selected relevant : List (List α))
    (at_k : ℕ) (h : selected.length = relevant.length) :
    normalized_dcg selected.reverse relevant.reverse at_k
      = normalized_dcg selected relevant at_k := by
  simp only [normalized_dcg]
  rw [zip_reverse selected relevant h, List.map_reverse, List.sum_reverse,
    List.length_reverse]

theorem evaluate_reverse (samples : List (List α × List α)) :
    evaluate samples.reverse = evaluate samples := by
  by_cases hs : samples = []
  · subst hs
    rfl
  · have hlen : (samples.map Prod.fst).length
        = (samples.map Prod.snd).length := by simp
    have he1 : samples.isEmpty = false := by
      simp [List.isEmpty_iff, hs]
    have he2 : samples.reverse.isEmpty = false := by
      simp [List.isEmpty_iff, hs]
    simp only [evaluate, he1, he2, Bool.false_eq_true, if_false]
    rw [List.map_reverse, List.map_reverse,
      normalized_dcg_reverse _ _ 5 hlen, normalized_dcg_reverse _ _ 10 hlen,
      precision_reverse _ _ none hlen, precision_reverse _ _ (some 1) hlen,
      precision_reverse _ _ (some 3) hlen, precision_reverse _ _ (some 5) hlen,
      recall_reverse _ _ hlen, f_measure_reverse _ _ hlen,
      true_positives_reverse _ _ hlen, false_positives_reverse _ _ hlen,
      false_negatives_reverse _ _ hlen]

/-- C8: submitting the same samples in reverse order yields an identical
report (same metric names, order and scores); the within-document Hit order
is untouched by reversing the sample list.  This holds for every batch, in
particular every non-empty one. -/
theorem results_reverse_invariant (batch : EvaluationBatch) :
    (EvaluationBatch.mk batch._samples.reverse).results = batch.results := by
  simp only [EvaluationBatch.results]
  rw [List.map_reverse]
  exact evaluate_reverse (batch._samples.map transform_sample)

end Annif
